import Mathlib

/-!
Shallow embedding of the NUVQL table query builder of the Nuvix web SDK
(`src/builders/table.ts` and the related builder variants shipped with the
repository), together with theorems checking the natural-language
specification against it.

The file has three groups of definitions:
* the value model and the Value Formatter (`JsVal`, `formatValue`, ...),
* the condition model and the serializer (`Cond`, `buildCondition`,
  `Builder.toString`, ...), embedded from the immutable `TableQueryBuilder`
  (the first class in `src/builders/table.ts`),
* the chain-only (mutating) builder variant (`MBuilder`), embedded from the
  second class in the same file and the sibling variant, which accumulates
  state in place and returns `this` from every method.
-/

/-- JavaScript runtime values a filter may carry, as the formatter
distinguishes them (`typeof` chain plus `instanceof Date`).  Numbers are
modelled as integers, whose JS rendering `String(n)` is the decimal string;
a `Date` is carried by the string its `toISOString()` returns. -/
inductive JsVal where
  | jsNull
  | undef
  | str (s : String)
  | boolean (b : Bool)
  | num (n : Int)
  | date (iso : String)
  | arr (elems : List JsVal)
  | obj (fields : List (String × JsVal))
deriving Repr

/-- Lowercase hexadecimal digit, used by the JSON escape of control
characters (`\u00XX`). -/
def hexLower (n : Nat) : Char :=
  if n < 10 then Char.ofNat (48 + n) else Char.ofNat (87 + n)

/-- Uppercase hexadecimal digit, used by percent-encoding. -/
def hexUpper (n : Nat) : Char :=
  if n < 10 then Char.ofNat (48 + n) else Char.ofNat (55 + n)

/-- The escape `JSON.stringify` applies to one character of a JSON string. -/
def jsonEscapeChar (c : Char) : String :=
  if c = Char.ofNat 34 then "\\\x22"
  else if c = Char.ofNat 92 then "\\\\"
  else if c = Char.ofNat 8 then "\\b"
  else if c = Char.ofNat 9 then "\\t"
  else if c = Char.ofNat 10 then "\\n"
  else if c = Char.ofNat 12 then "\\f"
  else if c = Char.ofNat 13 then "\\r"
  else if c.toNat < 32 then
    "\\u00" ++ String.singleton (hexLower (c.toNat / 16)) ++
      String.singleton (hexLower (c.toNat % 16))
  else String.singleton c

def jsonEscape (s : String) : String :=
  String.join (s.data.map jsonEscapeChar)

mutual

/-- `JSON.stringify` on a JS value: `none` models the JS result
`undefined` (for a bare `undefined` value), which arrays render as
`null` and objects omit; a `Date` serializes through its `toJSON`
(the ISO string). -/
def jsonStringifyVal : JsVal → Option String
  | .jsNull => some "null"
  | .undef => none
  | .str s => some ("\x22" ++ jsonEscape s ++ "\x22")
  | .boolean b => some (if b then "true" else "false")
  | .num n => some (toString n)
  | .date iso => some ("\x22" ++ jsonEscape iso ++ "\x22")
  | .arr xs => some ("[" ++ String.intercalate "," (jsonStringifyArr xs) ++ "]")
  | .obj kvs =>
      some ("\x7b" ++ String.intercalate "," (jsonStringifyObj kvs) ++ "\x7d")

def jsonStringifyArr : List JsVal → List String
  | [] => []
  | x :: xs => ((jsonStringifyVal x).getD "null") :: jsonStringifyArr xs

def jsonStringifyObj : List (String × JsVal) → List String
  | [] => []
  | (k, v) :: xs =>
      match jsonStringifyVal v with
      | some sv => ("\x22" ++ jsonEscape k ++ "\x22:" ++ sv) :: jsonStringifyObj xs
      | none => jsonStringifyObj xs

end

/-- One step of `value.replace(/'/g, "\\'")`: a single quote becomes
backslash plus quote, every other character is kept. -/
def escSqChar (c : Char) : String :=
  if c = Char.ofNat 39 then "\\\x27" else String.singleton c

/-- `value.replace(/'/g, "\\'")` — the single-character global replace is a
character-wise map. -/
def escSq (s : String) : String :=
  String.join (s.data.map escSqChar)

/-- Whether a character list begins with the given pattern list. -/
def listStartsWith : List Char → List Char → Bool
  | _, [] => true
  | [], _ :: _ => false
  | c :: cs, p :: ps => c == p && listStartsWith cs ps

/-- JS `s.startsWith(pat)`. -/
def strStartsWith (s pat : String) : Bool :=
  listStartsWith s.data pat.data

/-- JS `s.endsWith(pat)`. -/
def strEndsWith (s pat : String) : Bool :=
  listStartsWith s.data.reverse pat.data.reverse

/-- `TableQueryBuilder.isColumnReference`: a string that starts and ends
with a double quote; every non-string value is not a reference. -/
def isColumnReference : JsVal → Bool
  | .str s => strStartsWith s "\x22" && strEndsWith s "\x22"
  | _ => false

/-- The literal branch of `TableQueryBuilder.formatValue` (the `typeof`
chain after the column-reference guard). -/
def formatLiteral : JsVal → String
  | .jsNull => "null"
  | .undef => "null"
  | .str s => "\x27" ++ escSq s ++ "\x27"
  | .boolean b => if b then "true" else "false"
  | .num n => toString n
  | .date iso => "\x27" ++ iso ++ "\x27"
  | .arr xs =>
      "\x27" ++ escSq ((jsonStringifyVal (.arr xs)).getD "undefined") ++ "\x27"
  | .obj kvs =>
      "\x27" ++ escSq ((jsonStringifyVal (.obj kvs)).getD "undefined") ++ "\x27"

/-- `TableQueryBuilder.formatValue` of the immutable variant: a value
flagged as a column reference and shaped like one (string wrapped in
double quotes) is returned as is; otherwise the literal chain runs. -/
def formatValue (v : JsVal) (isColRef : Bool) : String :=
  match v with
  | .str s =>
      if isColRef && strStartsWith s "\x22" && strEndsWith s "\x22" then s
      else formatLiteral (.str s)
  | v' => formatLiteral v'

/-- `TableQueryBuilder.formatSpecialValue`: the sentinel family used by
`is`/`isnot`. -/
def formatSpecialValue : JsVal → String
  | .jsNull => "null"
  | .str s =>
      if s = "null" then "null"
      else if s = "not_null" then "not_null"
      else formatValue (.str s) false
  | .boolean b => if b then "true" else "false"
  | v => formatValue v false

/-- The operator vocabulary of `NuvqlOperator` (the TS names `in` and `is`
are Lean keywords and are spelled `inOp`/`isOp` here). -/
inductive Op where
  | eq | neq | gt | gte | lt | lte
  | like | ilike | inOp | nin
  | isOp | isnot | between | nbetween
  | contains | startswith | endswith
deriving Repr, DecidableEq

/-- `NuvqlLogicalOperator`. -/
inductive LogicalOp where
  | and | or | not
deriving Repr, DecidableEq

/-- `NuvqlCondition`: either a `NuvqlFilterCondition` (the optional
`isColumnReference` field is a `Bool`, JS `undefined` behaving as `false`)
or a `NuvqlLogicalCondition`. -/
inductive Cond where
  | filter (column : String) (op : Op) (value : JsVal) (isColRef : Bool)
  | logical (op : LogicalOp) (conds : List Cond)
deriving Repr

/-- JS destructuring `const [min, max] = Array.isArray(value) ? value
: [value, value]`: missing positions read as `undefined`. -/
def destructPair : JsVal → JsVal × JsVal
  | .arr [] => (.undef, .undef)
  | .arr [a] => (a, .undef)
  | .arr (a :: b :: _) => (a, b)
  | v => (v, v)

mutual

/-- `TableQueryBuilder.buildCondition` of the immutable variant: logical
nodes recurse, filter nodes dispatch on the operator tag. -/
def buildCondition : Cond → String
  | .logical lop conds =>
      let built := buildCondList conds
      match lop with
      | .and => "and(" ++ String.intercalate "," built ++ ")"
      | .or => "or(" ++ String.intercalate "," built ++ ")"
      | .not => "not(" ++ String.intercalate "," built ++ ")"
  | .filter column op value isColRef =>
      match op with
      | .eq => column ++ ".eq(" ++ formatValue value isColRef ++ ")"
      | .neq => column ++ ".neq(" ++ formatValue value isColRef ++ ")"
      | .gt => column ++ ".gt(" ++ formatValue value isColRef ++ ")"
      | .gte => column ++ ".gte(" ++ formatValue value isColRef ++ ")"
      | .lt => column ++ ".lt(" ++ formatValue value isColRef ++ ")"
      | .lte => column ++ ".lte(" ++ formatValue value isColRef ++ ")"
      | .like => column ++ ".like(" ++ formatValue value isColRef ++ ")"
      | .ilike => column ++ ".ilike(" ++ formatValue value isColRef ++ ")"
      | .contains => column ++ ".contains(" ++ formatValue value isColRef ++ ")"
      | .startswith =>
          column ++ ".startswith(" ++ formatValue value isColRef ++ ")"
      | .endswith => column ++ ".endswith(" ++ formatValue value isColRef ++ ")"
      | .inOp =>
          let inValues :=
            match value with
            | .arr xs =>
                String.intercalate "," (xs.map (fun v => formatValue v false))
            | v => formatValue v isColRef
          column ++ ".in[" ++ inValues ++ "]"
      | .nin =>
          let ninValues :=
            match value with
            | .arr xs =>
                String.intercalate "," (xs.map (fun v => formatValue v false))
            | v => formatValue v isColRef
          column ++ ".nin[" ++ ninValues ++ "]"
      | .between =>
          let p := destructPair value
          column ++ ".between[" ++ formatValue p.1 false ++ "," ++
            formatValue p.2 false ++ "]"
      | .nbetween =>
          let p := destructPair value
          column ++ ".nbetween[" ++ formatValue p.1 false ++ "," ++
            formatValue p.2 false ++ "]"
      | .isOp => column ++ ".is(" ++ formatSpecialValue value ++ ")"
      | .isnot => column ++ ".isnot(" ++ formatSpecialValue value ++ ")"

def buildCondList : List Cond → List String
  | [] => []
  | c :: cs => buildCondition c :: buildCondList cs

end

/-- Join type vocabulary. -/
inductive JoinType where
  | inner | left | right | full
deriving Repr, DecidableEq

def JoinType.render : JoinType → String
  | .inner => "inner"
  | .left => "left"
  | .right => "right"
  | .full => "full"

/-- Shaped-join kind. -/
inductive JoinKind where
  | one | many
deriving Repr, DecidableEq

def JoinKind.render : JoinKind → String
  | .one => "one"
  | .many => "many"

/-- `JoinOptions` of the immutable variant, with JS property-presence made
explicit: `flattenProp`/`typeProp` are `none` when the key is absent (the
serializer tests `"flatten" in opts && opts.flatten` and `opts.type ??
"inner"`), while `kindProp` distinguishes an absent key (`none`) from a key
present with value `undefined` (`some none`), because `"kind" in opts` is
true in the latter case and `opts.kind ?? "many"` then defaults. -/
structure JoinOptions where
  table : String
  asName : Option String := none
  flattenProp : Option Bool := none
  typeProp : Option JoinType := none
  kindProp : Option (Option JoinKind) := none
deriving Repr, DecidableEq

/-- `"flatten" in opts && opts.flatten` as a truthiness test. -/
def JoinOptions.flattenTruthy (o : JoinOptions) : Bool :=
  o.flattenProp.getD false

/-- The `config` record of the immutable `TableQueryBuilder`. -/
structure Config where
  tableName : String
  schema : String
  isJoinBuilder : Bool := false
  joinOptions : Option JoinOptions := none
  parentTableName : Option String := none
deriving Repr

/-- Observable state of the immutable `TableQueryBuilder` (the type-level
`joinedTables` map carries no serialized data and is omitted). -/
structure Builder where
  config : Config
  selectedColumns : List String := []
  conditions : List Cond := []
  joins : List (String × String) := []
deriving Repr

/-- The builder a schema entry point creates for one table. -/
def Builder.init (tableName schema : String) : Builder :=
  { config := { tableName := tableName, schema := schema } }

/-- `TableQueryBuilder.addCondition` of the immutable variant: spread the
old list, append, and return a clone carrying the new list. -/
def Builder.addCondition (b : Builder) (c : Cond) : Builder :=
  { b with conditions := b.conditions ++ [c] }

/-- `TableQueryBuilder.addLogicalCondition` of the immutable variant. -/
def Builder.addLogicalCondition (b : Builder) (c : Cond) : Builder :=
  { b with conditions := b.conditions ++ [c] }

def Builder.eq (b : Builder) (column : String) (value : JsVal) : Builder :=
  b.addCondition (.filter column .eq value (isColumnReference value))

def Builder.neq (b : Builder) (column : String) (value : JsVal) : Builder :=
  b.addCondition (.filter column .neq value (isColumnReference value))

def Builder.gt (b : Builder) (column : String) (value : JsVal) : Builder :=
  b.addCondition (.filter column .gt value (isColumnReference value))

def Builder.gte (b : Builder) (column : String) (value : JsVal) : Builder :=
  b.addCondition (.filter column .gte value (isColumnReference value))

def Builder.lt (b : Builder) (column : String) (value : JsVal) : Builder :=
  b.addCondition (.filter column .lt value (isColumnReference value))

def Builder.lte (b : Builder) (column : String) (value : JsVal) : Builder :=
  b.addCondition (.filter column .lte value (isColumnReference value))

def Builder.like (b : Builder) (column : String) (value : JsVal) : Builder :=
  b.addCondition (.filter column .like value (isColumnReference value))

def Builder.ilike (b : Builder) (column : String) (value : JsVal) : Builder :=
  b.addCondition (.filter column .ilike value (isColumnReference value))

def Builder.contains (b : Builder) (column : String) (value : JsVal) : Builder :=
  b.addCondition (.filter column .contains value (isColumnReference value))

def Builder.startswith (b : Builder) (column : String) (value : JsVal) : Builder :=
  b.addCondition (.filter column .startswith value (isColumnReference value))

def Builder.endswith (b : Builder) (column : String) (value : JsVal) : Builder :=
  b.addCondition (.filter column .endswith value (isColumnReference value))

/-- The TS method is named `in`; `isColumnReference` is left unset there,
hence `false` here. -/
def Builder.inList (b : Builder) (column : String) (values : List JsVal) :
    Builder :=
  b.addCondition (.filter column .inOp (.arr values) false)

def Builder.nin (b : Builder) (column : String) (values : List JsVal) :
    Builder :=
  b.addCondition (.filter column .nin (.arr values) false)

def Builder.between (b : Builder) (column : String) (mn mx : JsVal) : Builder :=
  b.addCondition (.filter column .between (.arr [mn, mx]) false)

def Builder.nbetween (b : Builder) (column : String) (mn mx : JsVal) : Builder :=
  b.addCondition (.filter column .nbetween (.arr [mn, mx]) false)

/-- A selection argument: a bare string (kept as is), or a plain object of
`alias: columnPath` pairs (the `ColumnBuilder` argument shape is outside
the claims and not modelled). -/
inductive SelectArg where
  | strA (s : String)
  | objA (pairs : List (String × JsVal))
deriving Repr

/-- `Object.entries(column).forEach`: only string-valued entries are
pushed, as `alias:colDef`. -/
def selectObjEntries : List (String × JsVal) → List String
  | [] => []
  | (aliasKey, .str colDef) :: rest =>
      (aliasKey ++ ":" ++ colDef) :: selectObjEntries rest
  | _ :: rest => selectObjEntries rest

/-- `TableQueryBuilder.select` of the immutable variant: zero arguments
reset the selection; otherwise the arguments are normalized in order and a
clone carries the new list. -/
def Builder.select (b : Builder) (columns : List SelectArg) : Builder :=
  if columns.isEmpty then { b with selectedColumns := [] }
  else
    let newSelectedColumns :=
      columns.foldl
        (fun acc col =>
          match col with
          | .strA s => acc ++ [s]
          | .objA pairs => acc ++ selectObjEntries pairs)
        []
    { b with selectedColumns := newSelectedColumns }

/-- The fresh nested builder `and`/`or`/`not` pass to their callback: same
client and config, empty own state (only the type-level joined-tables map
is carried over). -/
def Builder.nestedBuilder (b : Builder) : Builder :=
  { config := b.config }

/-- `TableQueryBuilder.and` of the immutable variant.  The callback's
return value is discarded and the guard re-reads the nested builder that
was passed in; since every predicate method of this variant returns a
clone and never writes its receiver, that builder still has its initial
(empty) condition list. -/
def Builder.and (b : Builder) (cb : Builder → Builder) : Builder :=
  let nestedFilter := b.nestedBuilder
  let _res := cb nestedFilter
  if nestedFilter.conditions.length > 0 then
    b.addLogicalCondition (.logical .and nestedFilter.conditions)
  else b

/-- `TableQueryBuilder.or` of the immutable variant. -/
def Builder.or (b : Builder) (cb : Builder → Builder) : Builder :=
  let nestedFilter := b.nestedBuilder
  let _res := cb nestedFilter
  if nestedFilter.conditions.length > 0 then
    b.addLogicalCondition (.logical .or nestedFilter.conditions)
  else b

/-- `TableQueryBuilder.not` of the immutable variant. -/
def Builder.not (b : Builder) (cb : Builder → Builder) : Builder :=
  let nestedFilter := b.nestedBuilder
  let _res := cb nestedFilter
  if nestedFilter.conditions.length > 0 then
    b.addLogicalCondition (.logical .not nestedFilter.conditions)
  else b

/-- `$.join(${opts.type ?? "inner"})`. -/
def joinTypeStr (opts : JoinOptions) : String :=
  "$.join(" ++ (opts.typeProp.getD .inner).render ++ ")"

/-- `"flatten" in opts && opts.flatten ? "..." : ""`. -/
def flattenMark (opts : JoinOptions) : String :=
  if opts.flattenTruthy then "..." else ""

/-- `!flatten && "kind" in opts ? "." + (opts.kind ?? "many") : ""` — the
`!flatten` tests the (string) flatten mark for emptiness. -/
def kindMark (opts : JoinOptions) : String :=
  if flattenMark opts == "" && opts.kindProp.isSome then
    "." ++ ((opts.kindProp.getD none).getD .many).render
  else ""

/-- `opts.as ? opts.as + ":" : ""` (an empty alias string is falsy). -/
def aliasMark (opts : JoinOptions) : String :=
  if (opts.asName.getD "").isEmpty then "" else (opts.asName.getD "") ++ ":"

/-- `TableQueryBuilder.toString` of the immutable variant: the join-embed
form when the builder is a join builder with options, the top-level
`select=...&filter=...` form otherwise. -/
def Builder.toString (b : Builder) : String :=
  let select :=
    if b.selectedColumns.isEmpty then "*"
    else String.intercalate "," b.selectedColumns
  let filter := String.intercalate "," (buildCondList b.conditions)
  let joins := String.intercalate "," (b.joins.map Prod.snd)
  match b.config.isJoinBuilder, b.config.joinOptions with
  | true, some opts =>
      let conds := List.filter (fun s => !(s == "")) [filter, joinTypeStr opts]
      let query :=
        flattenMark opts ++ aliasMark opts ++ b.config.tableName ++
          kindMark opts ++ "\x7b" ++ String.intercalate "," conds ++ "\x7d"
      if select != "*" || joins != "" then
        let innerSelect :=
          String.intercalate "," (List.filter (fun s => !(s == "*")) [select, joins])
        query ++ "(" ++ (if innerSelect == "" then "*" else innerSelect) ++ ")"
      else query
  | _, _ =>
      let finalSelect :=
        String.intercalate "," (List.filter (fun s => !(s == "")) [select, joins])
      let query := "select=" ++ finalSelect
      if filter != "" then query ++ "&filter=" ++ filter else query

/-- `TableQueryBuilder.join` of the immutable variant: a nested join
builder is created, the callback's result is serialized, and the clone
records `(alias-or-table, query)`. -/
def Builder.join (b : Builder) (options : JoinOptions) (cb : Builder → Builder) :
    Builder :=
  let joinName :=
    if (options.asName.getD "").isEmpty then options.table
    else options.asName.getD ""
  let joinBuilder : Builder :=
    { config :=
        { tableName := options.table
          schema := b.config.schema
          isJoinBuilder := true
          joinOptions := some options
          parentTableName := some b.config.tableName } }
  let finalJoinBuilder := cb joinBuilder
  { b with joins := b.joins ++ [(joinName, finalJoinBuilder.toString)] }

/-- The structured exception of the SDK: message, numeric code, and a
machine-readable type string. -/
structure NuvixException where
  message : String
  code : Nat
  kind : String
deriving Repr, DecidableEq

/-- `TableQueryBuilder.single` applied to the list the transport returned:
zero results reject with the no-results error, more than one with the
multiple-results error, exactly one resolves to that element. -/
def singleOf {α : Type} (results : List α) : Except NuvixException α :=
  match results with
  | [] => .error ⟨"No results found", 404, "NO_RESULTS"⟩
  | [x] => .ok x
  | _ :: _ :: _ => .error ⟨"Multiple results found", 400, "MULTIPLE_RESULTS"⟩

/-- `TableQueryBuilder.maybeSingle` applied to the list the transport
returned: `results.length > 0 ? results[0] : null`. -/
def maybeSingleOf {α : Type} (results : List α) : Option α :=
  if results.length > 0 then results.head? else none

/-- UTF-8 encoding of one character (code points are valid scalars, so the
standard 1–4 byte scheme applies); bytes are carried as `Nat < 256`. -/
def charUtf8 (c : Char) : List Nat :=
  let n := c.toNat
  if n < 0x80 then [n]
  else if n < 0x800 then [0xC0 + n / 64, 0x80 + n % 64]
  else if n < 0x10000 then
    [0xE0 + n / 4096, 0x80 + (n / 64) % 64, 0x80 + n % 64]
  else
    [0xF0 + n / 262144, 0x80 + (n / 4096) % 64, 0x80 + (n / 64) % 64,
      0x80 + n % 64]

def utf8Bytes (s : String) : List Nat :=
  s.data.flatMap charUtf8

/-- Bytes the `application/x-www-form-urlencoded` serializer leaves as-is:
ASCII alphanumerics and `*`, `-`, `.`, `_`. -/
def isFormSafeByte (b : Nat) : Bool :=
  (0x30 ≤ b && b ≤ 0x39) || (0x41 ≤ b && b ≤ 0x5A) || (0x61 ≤ b && b ≤ 0x7A) ||
    b == 0x2A || b == 0x2D || b == 0x2E || b == 0x5F

/-- Form-url-encoding of one byte: space to `+`, safe bytes verbatim, the
rest percent-escaped with uppercase hex. -/
def formEncodeByte (b : Nat) : String :=
  if b == 0x20 then "+"
  else if isFormSafeByte b then String.singleton (Char.ofNat b)
  else
    "%" ++ String.singleton (hexUpper (b / 16 % 16)) ++
      String.singleton (hexUpper (b % 16))

def formEncodeBytes (bs : List Nat) : String :=
  String.join (bs.map formEncodeByte)

/-- Value of one hexadecimal digit byte, if it is one. -/
def hexDigitVal (b : Nat) : Option Nat :=
  if 0x30 ≤ b && b ≤ 0x39 then some (b - 0x30)
  else if 0x41 ≤ b && b ≤ 0x46 then some (b - 0x37)
  else if 0x61 ≤ b && b ≤ 0x66 then some (b - 0x57)
  else none

/-- One fuelled scan step of percent-decoding (with `+` as space); each
step consumes at least one byte, so `bs.length` fuel always suffices and
the zero-fuel fallback is unreachable. -/
def pdAux : Nat → List Nat → List Nat
  | _, [] => []
  | 0, bs => bs
  | fuel + 1, 0x2B :: rest => 0x20 :: pdAux fuel rest
  | fuel + 1, 0x25 :: h1 :: h2 :: rest2 =>
      (match hexDigitVal h1, hexDigitVal h2 with
       | some a, some b => (16 * a + b) :: pdAux fuel rest2
       | _, _ => 0x25 :: pdAux fuel (h1 :: h2 :: rest2))
  | fuel + 1, b :: rest => b :: pdAux fuel rest

/-- Percent-decoding (with `+` as space) of a byte sequence, as the
`URLSearchParams` parser applies it; a malformed escape keeps the `%`
verbatim and rescans from the following byte. -/
def percentDecodeBytes (bs : List Nat) : List Nat :=
  pdAux bs.length bs

/-- Split a byte sequence on a separator byte. -/
def splitOnByte (sep : Nat) : List Nat → List (List Nat)
  | [] => [[]]
  | b :: rest =>
      let tailSplit := splitOnByte sep rest
      if b == sep then [] :: tailSplit
      else
        match tailSplit with
        | seg :: segs => (b :: seg) :: segs
        | [] => [[b]]

/-- Split one `name=value` sequence at its first `=`. -/
def splitPairAux (acc : List Nat) : List Nat → List Nat × List Nat
  | [] => (acc.reverse, [])
  | 0x3D :: rest => (acc.reverse, rest)
  | b :: rest => splitPairAux (b :: acc) rest

def splitPair (seq : List Nat) : List Nat × List Nat :=
  splitPairAux [] seq

/-- `new URLSearchParams(init).toString()`: strip a leading `?`, split on
`&` skipping empty sequences, split each at the first `=`, percent-decode
both sides, then re-serialize every pair form-url-encoded. -/
def urlSearchParamsRoundtrip (s : String) : String :=
  let bs := utf8Bytes s
  let bs := if bs.head? == some 0x3F then bs.tail else bs
  let seqs := (splitOnByte 0x26 bs).filter (fun seg => !seg.isEmpty)
  let pairs := seqs.map splitPair
  String.intercalate "&"
    (pairs.map (fun p =>
      formEncodeBytes (percentDecodeBytes p.1) ++ "=" ++
        formEncodeBytes (percentDecodeBytes p.2)))

/-- The URL `TableQueryBuilder.execute` hands to the transport: the `URL`
is created from `` `${endpoint}/schemas/${schema}/${tableName}` `` and its
search is set to `new URLSearchParams(this.toString()).toString()`
(assuming a well-formed absolute endpoint with no trailing slash, so the
`URL` constructor keeps the path verbatim). -/
def executeUrl (endpoint : String) (b : Builder) : String :=
  let search := urlSearchParamsRoundtrip b.toString
  endpoint ++ "/schemas/" ++ b.config.schema ++ "/" ++ b.config.tableName ++
    (if search == "" then "" else "?" ++ search)

/-- Whether a character list contains the pattern list as a contiguous
run. -/
def listContainsSeq : List Char → List Char → Bool
  | [], pat => pat.isEmpty
  | c :: rest, pat => listStartsWith (c :: rest) pat || listContainsSeq rest pat

/-- JS `s.includes(pat)`. -/
def containsSub (s pat : String) : Bool :=
  listContainsSeq s.data pat.data

/-- The runtime `jsonPathToFieldName` of the sibling builder variant: a
global replace of the regex `->>?` by `_` — a greedy left-to-right scan
replacing each `->>` or `->` with one underscore. -/
def jptfGo : List Char → List Char
  | '-' :: '>' :: '>' :: rest => '_' :: jptfGo rest
  | '-' :: '>' :: rest => '_' :: jptfGo rest
  | c :: rest => c :: jptfGo rest
  | [] => []

def jsonPathToFieldName (path : String) : String :=
  String.mk (jptfGo path.data)

/-- The selection post-processing in the sibling variant's serializer:
a column containing `->` but no `:` is prefixed with its derived field
name as alias. -/
def processSelection (col : String) : String :=
  if containsSub col "->" && !(containsSub col ":") then
    jsonPathToFieldName col ++ ":" ++ col
  else col

/-- Observable state of the chain-only (mutating) `TableQueryBuilder`
variant — the second class in `src/builders/table.ts` and the sibling
variant file.  Its methods push onto the instance's own lists and return
`this`, so a method's result is the receiver's state after the call (the
join-embed rendering of this variant is outside the claims and not
modelled: only a main-query config is carried). -/
structure MBuilder where
  tableName : String
  schema : String
  selectedColumns : List String := []
  conditions : List Cond := []
deriving Repr

def MBuilder.init (tableName schema : String) : MBuilder :=
  { tableName := tableName, schema := schema }

/-- Mutating `addCondition`: `this.conditions.push(condition); return
this`. -/
def MBuilder.addCondition (b : MBuilder) (c : Cond) : MBuilder :=
  { b with conditions := b.conditions ++ [c] }

def MBuilder.eq (b : MBuilder) (column : String) (value : JsVal) : MBuilder :=
  b.addCondition (.filter column .eq value (isColumnReference value))

def MBuilder.gt (b : MBuilder) (column : String) (value : JsVal) : MBuilder :=
  b.addCondition (.filter column .gt value (isColumnReference value))

def MBuilder.ilike (b : MBuilder) (column : String) (value : JsVal) : MBuilder :=
  b.addCondition (.filter column .ilike value (isColumnReference value))

/-- Mutating `and`: the callback mutates the fresh nested builder in place
(each of its methods returns `this`), so the nested builder's state after
the callback is the chain applied to the fresh state; a non-empty
accumulation is pushed as one logical condition onto the receiver. -/
def MBuilder.and (b : MBuilder) (cb : MBuilder → MBuilder) : MBuilder :=
  let nestedFilter := MBuilder.init b.tableName b.schema
  let nestedAfter := cb nestedFilter
  if nestedAfter.conditions.length > 0 then
    { b with conditions :=
        b.conditions ++ [.logical .and nestedAfter.conditions] }
  else b

/-- Mutating `or`. -/
def MBuilder.or (b : MBuilder) (cb : MBuilder → MBuilder) : MBuilder :=
  let nestedFilter := MBuilder.init b.tableName b.schema
  let nestedAfter := cb nestedFilter
  if nestedAfter.conditions.length > 0 then
    { b with conditions :=
        b.conditions ++ [.logical .or nestedAfter.conditions] }
  else b

/-- Mutating `not`. -/
def MBuilder.not (b : MBuilder) (cb : MBuilder → MBuilder) : MBuilder :=
  let nestedFilter := MBuilder.init b.tableName b.schema
  let nestedAfter := cb nestedFilter
  if nestedAfter.conditions.length > 0 then
    { b with conditions :=
        b.conditions ++ [.logical .not nestedAfter.conditions] }
  else b

/-- Main-query `toString` of the chain-only variant:
`select=...&filter=...`. -/
def MBuilder.toString (b : MBuilder) : String :=
  let select :=
    if b.selectedColumns.isEmpty then "*"
    else String.intercalate "," b.selectedColumns
  let filter := String.intercalate "," (buildCondList b.conditions)
  let query := "select=" ++ select
  if filter != "" then query ++ "&filter=" ++ filter else query

/-- A call on the immutable variant, as the pair (receiver's state after
the call, returned builder): `addCondition` returns `this._clone(...)` and
never writes the receiver's `readonly` fields, so the receiver keeps its
state and the extension lives only in the fresh returned clone. -/
def Builder.callEq (b : Builder) (column : String) (value : JsVal) :
    Builder × Builder :=
  (b, b.eq column value)

/-- `select` on the immutable variant as a (receiver-after, returned)
pair. -/
def Builder.callSelect (b : Builder) (columns : List SelectArg) :
    Builder × Builder :=
  (b, b.select columns)

/-- `and` on the immutable variant as a (receiver-after, returned) pair. -/
def Builder.callAnd (b : Builder) (cb : Builder → Builder) :
    Builder × Builder :=
  (b, b.and cb)

/-- `join` on the immutable variant as a (receiver-after, returned) pair. -/
def Builder.callJoin (b : Builder) (options : JoinOptions)
    (cb : Builder → Builder) : Builder × Builder :=
  (b, b.join options cb)

/-- A call on the chain-only variant, as the pair (receiver's state after
the call, returned builder): `addCondition` pushes onto `this.conditions`
and returns `this`, so the receiver and the returned value are the same
mutated object. -/
def MBuilder.callEq (b : MBuilder) (column : String) (value : JsVal) :
    MBuilder × MBuilder :=
  let r := b.eq column value
  (r, r)

/-- Modelled from the spec: the pagination extras of §4.5 (`limit(n)`,
`offset(n)`, `range(start, end)`) are not present anywhere under `src/` —
the table query builder there has no pagination methods — so they are
modelled from the spec's words: `limit`/`offset` are last-write-wins
fields, and `range` derives `limit = end - start + 1`, `offset = start`,
raising a configuration error if `start > end` or either bound is
negative. -/
structure Extras where
  limitVal : Option Int := none
  offsetVal : Option Int := none
deriving Repr, DecidableEq

/-- Modelled from the spec: `limit(n)` (last-write-wins). -/
def Extras.limit (e : Extras) (n : Int) : Extras :=
  { e with limitVal := some n }

/-- Modelled from the spec: `offset(n)` (last-write-wins). -/
def Extras.offset (e : Extras) (n : Int) : Extras :=
  { e with offsetVal := some n }

/-- Modelled from the spec: `range(start, end)`. -/
def Extras.range (e : Extras) (start stop : Int) :
    Except NuvixException Extras :=
  if start > stop ∨ start < 0 ∨ stop < 0 then
    .error ⟨"Invalid range bounds", 400, "INVALID_RANGE"⟩
  else
    .ok { e with limitVal := some (stop - start + 1), offsetVal := some start }

/-- Whether an `Except` is the error case. -/
def isExceptError {ε α : Type} : Except ε α → Bool
  | .error _ => true
  | .ok _ => false

/-- C1: in the immutable `TableQueryBuilder`, `and(cb)` hands the callback
a fresh nested builder, but since every predicate method returns a clone
and the callback's result is discarded, the guard re-reads an untouched
builder: the logical wrapper is never appended and the parent is returned
unchanged, so `and(f => f.eq(a,1).eq(b,2))` serializes to `select=*` with
no filter — not to `and(a.eq(1),b.eq(2))` as the claim states.  The
chain-only variant, whose nested builder is mutated in place, produces
exactly the claimed serialization. -/
theorem c1_logical_callback_is_noop_in_immutable_variant :
    ((Builder.init "users" "public").and
        (fun f => (f.eq "a" (.num 1)).eq "b" (.num 2))) =
      Builder.init "users" "public" ∧
    ((Builder.init "users" "public").and
        (fun f => (f.eq "a" (.num 1)).eq "b" (.num 2))).toString =
      "select=*" ∧
    ((MBuilder.init "users" "public").and
        (fun f => (f.eq "a" (.num 1)).eq "b" (.num 2))).toString =
      "select=*&filter=and(a.eq(1),b.eq(2))" :=
  ⟨rfl, rfl, rfl⟩

/-- C2: the Value Formatter renders non-column-reference values as the
claim states: null and undefined as the bare literal `null`; a string
single-quoted with every embedded single quote escaped; booleans as
`true`/`false`; a number as its unquoted decimal string; a `Date` as its
single-quoted ISO string; any array or object as its JSON serialization,
single-quoted with internal single quotes escaped. -/
theorem c2_format_value_literal_cases :
    formatValue .jsNull false = "null" ∧
    formatValue .undef false = "null" ∧
    (∀ s : String, formatValue (.str s) false = "\x27" ++ escSq s ++ "\x27") ∧
    (∀ b : Bool,
      formatValue (.boolean b) false = if b then "true" else "false") ∧
    (∀ n : Int, formatValue (.num n) false = toString n) ∧
    (∀ iso : String,
      formatValue (.date iso) false = "\x27" ++ iso ++ "\x27") ∧
    (∀ xs : List JsVal,
      formatValue (.arr xs) false =
        "\x27" ++ escSq ((jsonStringifyVal (.arr xs)).getD "undefined") ++
          "\x27") ∧
    (∀ kvs : List (String × JsVal),
      formatValue (.obj kvs) false =
        "\x27" ++ escSq ((jsonStringifyVal (.obj kvs)).getD "undefined") ++
          "\x27") ∧
    formatValue (.str "it\x27s") false = "\x27it\\\x27s\x27" ∧
    formatValue (.date "2023-01-01T00:00:00.000Z") false =
      "\x272023-01-01T00:00:00.000Z\x27" ∧
    formatValue (.arr [.str "a\x27b", .num 2]) false =
      "\x27[\x22a\\\x27b\x22,2]\x27" :=
  ⟨rfl, rfl, fun _ => rfl, fun _ => rfl, fun _ => rfl, fun _ => rfl,
    fun _ => rfl, fun _ => rfl, rfl, rfl, rfl⟩

/-- C3 counterexample: an `in` condition with values `admin`, `user` on
column `role` serializes with square brackets, `role.in[...]`, not with
the parenthesized form `role.in(...)` the claim states. -/
theorem c3_in_condition_renders_with_brackets :
    buildCondition
        (.filter "role" .inOp (.arr [.str "admin", .str "user"]) false) =
      "role.in[\x27admin\x27,\x27user\x27]" ∧
    ((buildCondition
          (.filter "role" .inOp (.arr [.str "admin", .str "user"]) false) ==
        "role.in(\x27admin\x27,\x27user\x27)") = false) :=
  ⟨rfl, rfl⟩

/-- C3 amended: list conditions (`in`, spelled `nin` for the negative
form) serialize as `column.op[v1,...,vn]` and range conditions
(`between`/`nbetween`) as `column.op[min,max]` — square brackets — while
comparison operators keep the parenthesized `column.op(value)` pattern. -/
theorem c3_list_and_range_bracket_rendering :
    (∀ (column : String) (vs : List JsVal) (r : Bool),
      buildCondition (.filter column .inOp (.arr vs) r) =
        column ++ ".in[" ++
          String.intercalate "," (vs.map (fun v => formatValue v false)) ++
          "]") ∧
    (∀ (column : String) (vs : List JsVal) (r : Bool),
      buildCondition (.filter column .nin (.arr vs) r) =
        column ++ ".nin[" ++
          String.intercalate "," (vs.map (fun v => formatValue v false)) ++
          "]") ∧
    (∀ (column : String) (a b : JsVal) (r : Bool),
      buildCondition (.filter column .between (.arr [a, b]) r) =
        column ++ ".between[" ++ formatValue a false ++ "," ++
          formatValue b false ++ "]") ∧
    (∀ (column : String) (a b : JsVal) (r : Bool),
      buildCondition (.filter column .nbetween (.arr [a, b]) r) =
        column ++ ".nbetween[" ++ formatValue a false ++ "," ++
          formatValue b false ++ "]") ∧
    (∀ (column : String) (v : JsVal) (r : Bool),
      buildCondition (.filter column .eq v r) =
        column ++ ".eq(" ++ formatValue v r ++ ")") :=
  ⟨fun _ _ _ => rfl, fun _ _ _ => rfl, fun _ _ _ _ => rfl,
    fun _ _ _ _ => rfl, fun _ _ _ => rfl⟩

/-- C4: `single()` on a response of size 0 rejects with the no-results
error, on size greater than 1 with the multiple-results error, and on
size 1 resolves to the one element unwrapped; `maybeSingle()` resolves to
null for size 0 and to the first element otherwise. -/
theorem c4_single_and_maybe_single_shape :
    ∀ α : Type,
      (singleOf ([] : List α) =
        .error ⟨"No results found", 404, "NO_RESULTS"⟩) ∧
      (∀ x : α, singleOf [x] = .ok x) ∧
      (∀ (x y : α) (rest : List α),
        singleOf (x :: y :: rest) =
          .error ⟨"Multiple results found", 400, "MULTIPLE_RESULTS"⟩) ∧
      (maybeSingleOf ([] : List α) = none) ∧
      (∀ (x : α) (rest : List α), maybeSingleOf (x :: rest) = some x) := by
  intro α
  refine ⟨rfl, fun _ => rfl, fun _ _ _ => rfl, rfl, fun x rest => ?_⟩
  simp [maybeSingleOf]

/-- C5: the claim's auto-aliasing of an alias-free JSON-path selection is
absent from the authoritative immutable builder: `select("meta->>name")`
compiles to `select=meta->>name`, verbatim and unaliased.  The intended
mapping the claim (and the file's own type-level `JsonPathToFieldName`)
describes is implemented only by the sibling variant's serializer, whose
separator replacement and alias prefixing are reproduced here and do
yield `meta_name:meta->>name`. -/
theorem c5_json_path_selection_unaliased_at_runtime :
    ((Builder.init "users" "public").select [.strA "meta->>name"]).toString =
      "select=meta->>name" ∧
    jsonPathToFieldName "meta->>name" = "meta_name" ∧
    processSelection "meta->>name" = "meta_name:meta->>name" ∧
    ((("meta->>name" : String) == "meta_name:meta->>name") = false) :=
  ⟨rfl, rfl, rfl, rfl⟩

/-- C6 counterexample: a flatten join of `blogs` whose callback only adds
a condition serializes to `...blogs\x7bid.eq(1),$.join(full)\x7d` with no
trailing `(<inner-select>)` — the embed fragment does not end in the
parenthesized inner selection the claim requires, because the serializer
omits it when the join selects `*` and has no nested joins. -/
theorem c6_join_embed_omits_inner_select :
    ((Builder.init "users" "public").join
        { table := "blogs", flattenProp := some true, typeProp := some .full }
        (fun f => f.eq "id" (.num 1))).joins =
      [("blogs", "...blogs\x7bid.eq(1),$.join(full)\x7d")] ∧
    strEndsWith "...blogs\x7bid.eq(1),$.join(full)\x7d" ")" = false :=
  ⟨rfl, rfl⟩

/-- C6 amended: a join builder serializes to `flatten-mark ++ alias-mark
++ table ++ kind-mark ++ \x7bpredicate,$.join(type)\x7d`, followed by
`(<inner-select>)` exactly when the join's selection differs from `*` or
nested joins exist; the `...` mark appears exactly when `flatten` is set
truthy, the `.kind` suffix exactly when the join is non-flatten and has a
`kind` property (defaulting to `many`), the `alias:` prefix exactly when
a non-empty alias is set, and the flatten mark and kind suffix never
co-occur. -/
theorem c6_join_embed_fragment_shape :
    (∀ (cfgTable cfgSchema : String) (opts : JoinOptions)
        (cols : List String) (conds : List Cond)
        (joins : List (String × String)),
      Builder.toString
          { config :=
              { tableName := cfgTable, schema := cfgSchema,
                isJoinBuilder := true, joinOptions := some opts }
            selectedColumns := cols, conditions := conds, joins := joins } =
        (let select :=
           if cols.isEmpty then "*" else String.intercalate "," cols
         let filter := String.intercalate "," (buildCondList conds)
         let js := String.intercalate "," (joins.map Prod.snd)
         let query :=
           flattenMark opts ++ aliasMark opts ++ cfgTable ++ kindMark opts ++
             "\x7b" ++
             String.intercalate ","
               (List.filter (fun s => !(s == "")) [filter, joinTypeStr opts]) ++
             "\x7d"
         if select != "*" || js != "" then
           let innerSelect :=
             String.intercalate ","
               (List.filter (fun s => !(s == "*")) [select, js])
           query ++ "(" ++
             (if innerSelect == "" then "*" else innerSelect) ++ ")"
         else query)) ∧
    (∀ opts : JoinOptions, flattenMark opts = "" ∨ kindMark opts = "") ∧
    (∀ opts : JoinOptions, (flattenMark opts == "...") = opts.flattenTruthy) ∧
    (∀ opts : JoinOptions,
      (kindMark opts == "") = (opts.flattenTruthy || !opts.kindProp.isSome)) ∧
    (∀ (tbl : String) (fl : Option Bool) (ty : Option JoinType)
        (kd : Option (Option JoinKind)),
      aliasMark ⟨tbl, none, fl, ty, kd⟩ = "") ∧
    (∀ (tbl s : String) (fl : Option Bool) (ty : Option JoinType)
        (kd : Option (Option JoinKind)),
      aliasMark ⟨tbl, some s, fl, ty, kd⟩ =
        if s.isEmpty then "" else s ++ ":") ∧
    ((Builder.init "posts" "public").join
        { table := "users", asName := some "author",
          kindProp := some (some .one) }
        (fun f =>
          (f.select [.strA "id", .strA "name"]).eq "id"
            (.str "\x22posts.user_id\x22"))).joins =
      [("author",
        "author:users.one\x7bid.eq(\x22posts.user_id\x22),$.join(inner)\x7d(id,name,)")] := by
  refine ⟨fun cfgTable cfgSchema opts cols conds joins => rfl,
    fun opts => ?_, fun opts => ?_, fun opts => ?_,
    fun tbl fl ty kd => rfl, fun tbl s fl ty kd => rfl, by decide⟩
  · rcases opts with ⟨tbl, asN, fl, ty, kd⟩
    rcases fl with _ | (_ | _) <;> rcases kd with _ | (_ | (_ | _)) <;>
      simp [flattenMark, kindMark, JoinOptions.flattenTruthy]
  · rcases opts with ⟨tbl, asN, fl, ty, kd⟩
    rcases fl with _ | (_ | _) <;> rfl
  · rcases opts with ⟨tbl, asN, fl, ty, kd⟩
    rcases fl with _ | (_ | _) <;> rcases kd with _ | (_ | (_ | _)) <;> rfl

/-- C7 (spec-modelled): `range(start, end)` derives `limit = end - start +
1` and `offset = start`, so `range(0,9)` equals `limit(10).offset(0)`, and
it raises a configuration error exactly when `start > end` or either
bound is negative. -/
theorem c7_range_limit_offset :
    (∀ e : Extras, e.range 0 9 = .ok ((e.limit 10).offset 0)) ∧
    Extras.range {} 5 2 =
      .error ⟨"Invalid range bounds", 400, "INVALID_RANGE"⟩ ∧
    (∀ (e : Extras) (s t : Int),
      isExceptError (e.range s t) =
        (decide (s > t) || decide (s < 0) || decide (t < 0))) ∧
    (∀ (e : Extras) (s t : Int),
      e.range s t =
        if s > t ∨ s < 0 ∨ t < 0 then
          .error ⟨"Invalid range bounds", 400, "INVALID_RANGE"⟩
        else .ok ((e.limit (t - s + 1)).offset s)) := by
  refine ⟨fun e => ?_, by norm_num [Extras.range], fun e s t => ?_,
    fun e s t => rfl⟩
  · norm_num [Extras.range, Extras.limit, Extras.offset]
  · by_cases h1 : s > t <;> by_cases h2 : s < 0 <;> by_cases h3 : t < 0 <;>
      simp [Extras.range, isExceptError, h1, h2, h3]

/-- C8 counterexample: for endpoint `https://api.example.com`, schema
`public`, table `users`, the URL built by `execute` is
`https://api.example.com/schemas/public/users?select=*` — the path has no
`tables` segment, unlike the `/schemas/<schema>/tables/<table>` path the
claim states (at this input the query component happens to round-trip
unchanged). -/
theorem c8_execute_url_lacks_tables_segment :
    executeUrl "https://api.example.com" (Builder.init "users" "public") =
      "https://api.example.com/schemas/public/users?select=*" ∧
    ((executeUrl "https://api.example.com" (Builder.init "users" "public") ==
        "https://api.example.com/schemas/public/tables/users?select=*") =
      false) :=
  ⟨by decide, by decide⟩

/-- C8 amended: the URL handed to the transport is
`<endpoint>/schemas/<schema>/<table>` (no `tables` path segment) with the
serialized query string, re-encoded by the `URLSearchParams` round trip
(form-url-encoding), as the query component; a plain serialization such
as `select=*` survives the round trip unchanged, while reserved
characters are percent-encoded. -/
theorem c8_execute_url_shape :
    (∀ (endpoint : String) (b : Builder),
      executeUrl endpoint b =
        endpoint ++ "/schemas/" ++ b.config.schema ++ "/" ++
          b.config.tableName ++
          (if urlSearchParamsRoundtrip b.toString == "" then ""
           else "?" ++ urlSearchParamsRoundtrip b.toString)) ∧
    urlSearchParamsRoundtrip "select=*" = "select=*" ∧
    urlSearchParamsRoundtrip "select=id,name" = "select=id%2Cname" :=
  ⟨fun _ _ => rfl, by decide, by decide⟩

/-- C9 counterexample: on the chain-only variant, calling `eq` changes the
receiver's own observable state — its condition list grows from 0 to 1
entries, because `addCondition` pushes in place and returns `this` — so
the claim that every non-terminal method leaves the receiving builder
unchanged fails for that variant. -/
theorem c9_chain_only_variant_mutates_receiver :
    ((((MBuilder.init "users" "public").callEq "id" (.num 1)).1.conditions.length ==
        (MBuilder.init "users" "public").conditions.length) = false) ∧
    (((MBuilder.init "users" "public").callEq "id" (.num 1)).1.conditions.length
      = 1) ∧
    (MBuilder.init "users" "public").conditions.length = 0 :=
  ⟨rfl, rfl, rfl⟩

/-- C9 amended: on the immutable `TableQueryBuilder` (the first class in
`src/builders/table.ts`), the non-terminal methods leave the receiver's
observable state unchanged — every call returns the extension as a fresh
clone — whereas the chain-only variants mutate the receiver in place and
return the same instance. -/
theorem c9_immutable_variant_receiver_untouched :
    (∀ (b : Builder) (c : String) (v : JsVal),
      (b.callEq c v).1 = b ∧
      (b.callEq c v).2.conditions =
        b.conditions ++ [.filter c .eq v (isColumnReference v)]) ∧
    (∀ (b : Builder) (cols : List SelectArg), (b.callSelect cols).1 = b) ∧
    (∀ (b : Builder) (cb : Builder → Builder), (b.callAnd cb).1 = b) ∧
    (∀ (b : Builder) (opts : JoinOptions) (cb : Builder → Builder),
      (b.callJoin opts cb).1 = b ∧
      (b.callJoin opts cb).2.joins.length = b.joins.length + 1) :=
  ⟨fun _ _ _ => ⟨rfl, rfl⟩, fun _ _ => rfl, fun _ _ => rfl,
    fun b opts cb => ⟨rfl, by simp [Builder.callJoin, Builder.join]⟩⟩

/-- C10: a string value is classified as a column reference exactly when
it both starts and ends with a double quote; no other value kind is ever
classified as one; and for the predicate methods carrying the flag the
formatter returns such a value verbatim — never single-quoted or escaped
— while any other string is rendered as an escaped single-quoted
literal. -/
theorem c10_column_reference_classification :
    (∀ s : String,
      isColumnReference (.str s) =
        (strStartsWith s "\x22" && strEndsWith s "\x22")) ∧
    isColumnReference .jsNull = false ∧
    isColumnReference .undef = false ∧
    (∀ b, isColumnReference (.boolean b) = false) ∧
    (∀ n, isColumnReference (.num n) = false) ∧
    (∀ iso, isColumnReference (.date iso) = false) ∧
    (∀ xs, isColumnReference (.arr xs) = false) ∧
    (∀ kvs, isColumnReference (.obj kvs) = false) ∧
    (∀ s : String,
      formatValue (.str s) (isColumnReference (.str s)) =
        (if strStartsWith s "\x22" && strEndsWith s "\x22" then s
         else "\x27" ++ escSq s ++ "\x27")) ∧
    (∀ column s : String,
      buildCondition
          ((((Builder.init "t" "p").eq column (.str s)).conditions).headD
            (.filter "" .eq .jsNull false)) =
        column ++ ".eq(" ++
          (if strStartsWith s "\x22" && strEndsWith s "\x22" then s
           else "\x27" ++ escSq s ++ "\x27") ++ ")") ∧
    buildCondition
        ((((Builder.init "t" "p").eq "id"
            (.str "\x22users.id\x22")).conditions).headD
          (.filter "" .eq .jsNull false)) =
      "id.eq(\x22users.id\x22)" := by
  refine ⟨fun s => rfl, rfl, rfl, fun _ => rfl, fun _ => rfl, fun _ => rfl,
    fun _ => rfl, fun _ => rfl, fun s => ?_, fun column s => ?_, by decide⟩
  · cases h1 : strStartsWith s "\x22" <;> cases h2 : strEndsWith s "\x22" <;>
      simp [formatValue, isColumnReference, formatLiteral, h1, h2]
  · cases h1 : strStartsWith s "\x22" <;> cases h2 : strEndsWith s "\x22" <;>
      simp [Builder.init, Builder.eq, Builder.addCondition, buildCondition,
        formatValue, isColumnReference, formatLiteral, h1, h2]
